import Mathlib

/-!
Shallow embedding of the layout logic of `flowchart_template.py` and
`mindmap_template.py` (repository contrueCT/nine1bot, image-generation
skill scripts), together with theorems settling the specification claims.

The flowchart geometry is exact rational arithmetic, so it is modelled
over `ℚ`; the mind-map geometry uses trigonometry and is modelled over
`ℝ`.  Fallible code paths (Python `IndexError`, `ZeroDivisionError`)
are modelled with `Except String`.
-/

namespace Nine1bot

/-- The five named attachment points returned by every shape-drawing
function of `flowchart_template.py`. -/
structure NodeAnchor where
  center : ℚ × ℚ
  top : ℚ × ℚ
  bottom : ℚ × ℚ
  left : ℚ × ℚ
  right : ℚ × ℚ
  deriving Repr, DecidableEq

/-- `draw_oval` (flowchart_template.py lines 36-46): the anchor dictionary
returned for an oval of the given width and height centered at `(x, y)`.
The call sites use width 2.5 and height 1.0. -/
def draw_oval (x y width height : ℚ) : NodeAnchor :=
  { center := (x, y)
    top := (x, y + height / 2)
    bottom := (x, y - height / 2)
    left := (x - width / 2, y)
    right := (x + width / 2, y) }

/-- `draw_rect` (lines 48-59): anchors for a rounded rectangle.  Call
sites use width 3.0 and height 1.2. -/
def draw_rect (x y width height : ℚ) : NodeAnchor :=
  { center := (x, y)
    top := (x, y + height / 2)
    bottom := (x, y - height / 2)
    left := (x - width / 2, y)
    right := (x + width / 2, y) }

/-- `draw_diamond` (lines 61-72): anchors are the four vertices of the
rhombus, at distance `size / 2` from the center.  Call sites use
size 1.8. -/
def draw_diamond (x y size : ℚ) : NodeAnchor :=
  { center := (x, y)
    top := (x, y + size / 2)
    bottom := (x, y - size / 2)
    left := (x - size / 2, y)
    right := (x + size / 2, y) }

/-- `draw_parallelogram` (lines 74-90): the skew offsets the drawn
vertices only; the returned anchors use the unskewed half-extents.
Call sites use width 3.0, height 1.0, skew 0.3. -/
def draw_parallelogram (x y width height skew : ℚ) : NodeAnchor :=
  { center := (x, y)
    top := (x, y + height / 2)
    bottom := (x, y - height / 2)
    left := (x - width / 2, y)
    right := (x + width / 2, y) }

/-- One flowchart step descriptor, as described in the docstring of
`create_flowchart`.  Successor indices are Python integers, so they are
modelled as `Int` (Python permits negative indices). `branch` models
`step.get('branch')`. -/
structure FlowStep where
  type : String
  text : String
  next : Option Int
  yes_to : Option Int
  no_to : Option Int
  branch : Option String
  deriving Repr, DecidableEq

/-- An arrow produced by `draw_arrow`: start point, end point, label
(empty when the call omits it) and whether it is curved. -/
structure Edge where
  src : ℚ × ℚ
  dst : ℚ × ℚ
  label : String
  curved : Bool
  deriving Repr, DecidableEq

/-- Canvas width of `create_flowchart` (line 135): always 10. -/
def flow_width : ℚ := 10

/-- Canvas height (line 134): `max(14, n_steps * 2.5)`. -/
def flow_height (n : ℕ) : ℚ := max 14 (n * 2.5)

/-- Vertical spacing (line 143): `(height - 2) / (n_steps + 1)`. -/
def flow_y_spacing (n : ℕ) : ℚ := (flow_height n - 2) / (n + 1)

/-- Horizontal center (line 144): `width / 2`. -/
def x_center : ℚ := flow_width / 2

/-- Vertical center of step `i` (line 148):
`height - 1 - (i + 1) * y_spacing`. -/
def flow_y (n i : ℕ) : ℚ := flow_height n - 1 - (i + 1) * flow_y_spacing n

/-- Horizontal center of a step (lines 149-155): the canvas center,
shifted left by 2 when `step.get('branch') == 'yes'` and right by 2 when
it equals `'no'`. -/
def flow_x (step : FlowStep) : ℚ :=
  if step.branch = some "yes" then x_center - 2
  else if step.branch = some "no" then x_center + 2
  else x_center

/-- Shape dispatch of `create_flowchart` (lines 157-167): start/end are
ovals, process a rectangle, decision a diamond, io a parallelogram, and
anything else falls back to the rectangle. -/
def draw_step (step : FlowStep) (x y : ℚ) : NodeAnchor :=
  if step.type = "start" ∨ step.type = "end" then draw_oval x y 2.5 1.0
  else if step.type = "process" then draw_rect x y 3.0 1.2
  else if step.type = "decision" then draw_diamond x y 1.8
  else if step.type = "io" then draw_parallelogram x y 3.0 1.0 0.3
  else draw_rect x y 3.0 1.2

/-- The node list built by the first loop of `create_flowchart`
(lines 146-169): one anchor record per step, in order. -/
def flow_nodes (steps : List FlowStep) : List NodeAnchor :=
  steps.enum.map (fun p => draw_step p.2 (flow_x p.2) (flow_y steps.length p.1))

/-- Python list subscription with an `Int` index: non-negative indices
must be `< len`, negative indices count from the end, and anything else
raises `IndexError`. -/
def pyGet {α : Type} (xs : List α) (idx : Int) : Except String α :=
  let j := if idx < 0 then idx + xs.length else idx
  if h : 0 ≤ j ∧ j < xs.length then Except.ok (xs.get ⟨j.toNat, by omega⟩)
  else Except.error "IndexError"

/-- The edges contributed by step `i` in the second loop of
`create_flowchart` (lines 172-186).  A decision step draws a curved
"Yes" arrow from its left anchor to `nodes[yes_to].top` and a curved
"No" arrow from its right anchor to `nodes[no_to].top`, each only when
the index is present and `< len(nodes)`; every other step draws one
straight unlabeled arrow from its bottom anchor to `nodes[next].top`
under the same guard.  Subscription follows Python semantics
(`pyGet`). -/
def edgesForStep (nodes : List NodeAnchor) (i : ℕ) (step : FlowStep) :
    Except String (List Edge) :=
  if step.type = "decision" then do
    let yesEdges ← match step.yes_to with
      | some y =>
          if y < (nodes.length : Int) then do
            let me ← pyGet nodes (i : Int)
            let tgt ← pyGet nodes y
            pure [Edge.mk me.left tgt.top "Yes" true]
          else pure []
      | none => pure ([] : List Edge)
    let noEdges ← match step.no_to with
      | some z =>
          if z < (nodes.length : Int) then do
            let me ← pyGet nodes (i : Int)
            let tgt ← pyGet nodes z
            pure [Edge.mk me.right tgt.top "No" true]
          else pure []
      | none => pure ([] : List Edge)
    pure (yesEdges ++ noEdges)
  else
    match step.next with
    | some nx =>
        if nx < (nodes.length : Int) then do
          let me ← pyGet nodes (i : Int)
          let tgt ← pyGet nodes nx
          pure [Edge.mk me.bottom tgt.top "" false]
        else pure []
    | none => pure ([] : List Edge)

/-- All edges of `create_flowchart`, concatenated in loop order. -/
def flow_edges (steps : List FlowStep) : Except String (List Edge) :=
  let nodes := flow_nodes steps
  steps.enum.foldlM
    (fun acc p => do
      let es ← edgesForStep nodes p.1 p.2
      pure (acc ++ es))
    ([] : List Edge)

/-- `create_flowchart` (lines 115-192), restricted to the geometry it
computes: the node anchors and the edge list. -/
def create_flowchart (steps : List FlowStep) :
    Except String (List NodeAnchor × List Edge) := do
  let edges ← flow_edges steps
  pure (flow_nodes steps, edges)

/-- Canvas height of `create_linear_flowchart` (lines 204-206):
`len(items) * 2 + 2`. -/
def linear_height (n : ℕ) : ℚ := n * 2 + 2

/-- Shape dispatch of `create_linear_flowchart` (lines 221-228) for item
`i` of `n`: placed at `x = 4`, `y = height - 2 - i * 2`; start/end are
ovals, decision a diamond, io a parallelogram, everything else (process
included) a rectangle. -/
def linear_node (n i : ℕ) (ty : String) : NodeAnchor :=
  let y := linear_height n - 2 - i * 2
  if ty = "start" ∨ ty = "end" then draw_oval 4 y 2.5 1.0
  else if ty = "decision" then draw_diamond 4 y 1.8
  else if ty = "io" then draw_parallelogram 4 y 3.0 1.0 0.3
  else draw_rect 4 y 3.0 1.2

/-- The node list built by `create_linear_flowchart` (lines 216-230). -/
def linear_nodes (items : List (String × String)) : List NodeAnchor :=
  items.enum.map (fun p => linear_node items.length p.1 p.2.1)

/-- One mind-map branch, as in the `data` dictionary consumed by
`create_mindmap` (mindmap_template.py).  `color` and `children` model
`b.get('color', ...)` and `b.get('children', [])`. -/
structure Branch where
  name : String
  color : Option String
  children : List String
  deriving Repr, DecidableEq

/-- The `data` dictionary of `create_mindmap`: header, center title and
ordered branches. -/
structure MindMapSpec where
  title : String
  header : String
  branches : List Branch
  deriving Repr, DecidableEq

/-- `max(len(b['children']) for b in branches) if branches else 0`
(mindmap_template.py line 122). -/
def mindmap_max_children (data : MindMapSpec) : ℕ :=
  if data.branches = [] then 0
  else ((data.branches.map (fun b => b.children.length)).maximum).getD 0

/-- Canvas width (line 124): `max(16, n_branches * 3)`. -/
noncomputable def mindmap_width (data : MindMapSpec) : ℝ :=
  max 16 (data.branches.length * 3)

/-- Canvas height (line 125): `max(12, 4 + max_children * 1.5)`. -/
noncomputable def mindmap_height (data : MindMapSpec) : ℝ :=
  max 12 (4 + mindmap_max_children data * 1.5)

/-- `radial_layout` (lines 71-80): `angle_step = 360 / count` raises
`ZeroDivisionError` when `count == 0`; otherwise position `i` is at
angle `radians(start_angle + i * angle_step)` on the circle of the
given radius around `center`. -/
noncomputable def radial_layout (center : ℝ × ℝ) (radius : ℝ) (count : ℕ)
    (start_angle : ℝ) : Except String (List (ℝ × ℝ)) :=
  if count = 0 then Except.error "ZeroDivisionError"
  else
    let angle_step : ℝ := 360 / count
    Except.ok ((List.range count).map (fun i : ℕ =>
      let angle := (start_angle + i * angle_step) * Real.pi / 180
      (center.1 + radius * Real.cos angle, center.2 + radius * Real.sin angle)))

/-- Child placement of `create_mindmap` (lines 154-173) for one branch
at `pos`: `direction = (pos - center) / norm(pos - center)`,
`child_base = pos + 2 * direction`, `perp = (-direction.y, direction.x)`,
`spread = 1.2`, and child `j` of `count` sits at
`child_base + ((j - (count - 1) / 2) * spread) * perp`. -/
noncomputable def child_positions (center pos : ℝ × ℝ) (count : ℕ) :
    List (ℝ × ℝ) :=
  let dx := pos.1 - center.1
  let dy := pos.2 - center.2
  let nrm := Real.sqrt (dx ^ 2 + dy ^ 2)
  let direction := (dx / nrm, dy / nrm)
  let child_base := (pos.1 + direction.1 * 2, pos.2 + direction.2 * 2)
  let perp := (-direction.2, direction.1)
  let spread : ℝ := 1.2
  (List.range count).map (fun j : ℕ =>
    let offset := ((j : ℝ) - ((count : ℝ) - 1) / 2) * spread
    (child_base.1 + perp.1 * offset, child_base.2 + perp.2 * offset))

/-- The geometry computed by `create_mindmap`: canvas size, center, the
branch positions, and for each branch its child positions. -/
structure MindMapLayout where
  width : ℝ
  height : ℝ
  center : ℝ × ℝ
  branch_positions : List (ℝ × ℝ)
  children : List (List (ℝ × ℝ))

/-- `create_mindmap` (lines 97-183), restricted to the geometry it
computes.  The canvas is sized from the branch count and the maximum
child count, the center sits at the canvas middle, branches are laid
out by `radial_layout` on the circle of radius `min(width, height) / 3`
starting at 90 degrees, and each branch's children by the perpendicular
fan of `child_positions` (an empty `children` list yields no child
positions, matching the `if children:` guard). -/
noncomputable def create_mindmap (data : MindMapSpec) :
    Except String MindMapLayout := do
  let n_branches := data.branches.length
  let width := mindmap_width data
  let height := mindmap_height data
  let center := (width / 2, height / 2)
  let branch_radius := min width height / 3
  let branch_positions ← radial_layout center branch_radius n_branches 90
  Except.ok
    { width := width
      height := height
      center := center
      branch_positions := branch_positions
      children := (data.branches.zip branch_positions).map
        (fun p => child_positions center p.2 p.1.children.length) }

/-! ## Helper lemmas -/

theorem flow_nodes_length (steps : List FlowStep) :
    (flow_nodes steps).length = steps.length := by
  simp [flow_nodes]

theorem flow_nodes_getElem (steps : List FlowStep) (i : ℕ) :
    (flow_nodes steps)[i]? =
      steps[i]?.map (fun s => draw_step s (flow_x s) (flow_y steps.length i)) := by
  simp only [flow_nodes, List.getElem?_map, List.getElem?_enum]
  cases steps[i]? <;> rfl

theorem linear_nodes_getElem (items : List (String × String)) (i : ℕ) :
    (linear_nodes items)[i]? =
      items[i]?.map (fun it => linear_node items.length i it.1) := by
  simp only [linear_nodes, List.getElem?_map, List.getElem?_enum]
  cases items[i]? <;> rfl

theorem draw_step_center (s : FlowStep) (x y : ℚ) :
    (draw_step s x y).center = (x, y) := by
  unfold draw_step draw_oval draw_rect draw_diamond draw_parallelogram
  split_ifs <;> rfl

theorem pyGet_coe {α : Type} (xs : List α) (i : ℕ) (v : α)
    (h : xs[i]? = some v) : pyGet xs (i : Int) = Except.ok v := by
  obtain ⟨hlt, hv⟩ := List.getElem?_eq_some.mp h
  unfold pyGet
  have h0 : ¬ ((i : Int) < 0) := by omega
  have hj : (if (i : Int) < 0 then (i : Int) + xs.length else (i : Int)) = (i : Int) :=
    if_neg h0
  simp only [hj]
  have hcond : (0 : Int) ≤ (i : Int) ∧ (i : Int) < xs.length := by omega
  rw [dif_pos hcond]
  simp only [Int.toNat_natCast, List.get_eq_getElem]
  exact congrArg Except.ok hv

theorem pyGet_neg {α : Type} (xs : List α) (k : Int) (v : α)
    (h1 : k < 0) (h2 : 0 ≤ k + (xs.length : Int))
    (hv : xs[(k + (xs.length : Int)).toNat]? = some v) :
    pyGet xs k = Except.ok v := by
  obtain ⟨hlt, hval⟩ := List.getElem?_eq_some.mp hv
  unfold pyGet
  have hj : (if k < 0 then k + xs.length else k) = k + (xs.length : Int) :=
    if_pos h1
  simp only [hj]
  have hcond : (0 : Int) ≤ k + (xs.length : Int) ∧
      k + (xs.length : Int) < xs.length := by omega
  rw [dif_pos hcond]
  simp only [List.get_eq_getElem]
  exact congrArg Except.ok hval

theorem pyGet_neg_oob {α : Type} (xs : List α) (k : Int)
    (h : k + (xs.length : Int) < 0) : pyGet xs k = Except.error "IndexError" := by
  unfold pyGet
  have h1 : k < 0 := by omega
  have hj : (if k < 0 then k + xs.length else k) = k + (xs.length : Int) :=
    if_pos h1
  simp only [hj]
  rw [dif_neg (by omega)]

/-! ## Claim theorems -/

/-- Midpoint facts asserted by C9 for one anchor record. -/
def anchorMidpoints (nd : NodeAnchor) : Prop :=
  nd.center = ((nd.top.1 + nd.bottom.1) / 2, (nd.top.2 + nd.bottom.2) / 2) ∧
  nd.center = ((nd.left.1 + nd.right.1) / 2, (nd.left.2 + nd.right.2) / 2)

/-- C9: every shape-drawing function (oval, rectangle, diamond,
parallelogram) returns a NodeAnchor determined by the center and the
shape's half-extents alone: top `(x, y + h/2)`, bottom `(x, y - h/2)`,
left `(x - w/2, y)`, right `(x + w/2, y)`, the diamond using
`w = h = size`; consequently the center is the midpoint of top and
bottom and of left and right. -/
theorem C9_anchor_invariants (x y w h size skew : ℚ) :
    draw_oval x y w h =
      ⟨(x, y), (x, y + h / 2), (x, y - h / 2), (x - w / 2, y), (x + w / 2, y)⟩ ∧
    draw_rect x y w h =
      ⟨(x, y), (x, y + h / 2), (x, y - h / 2), (x - w / 2, y), (x + w / 2, y)⟩ ∧
    draw_diamond x y size =
      ⟨(x, y), (x, y + size / 2), (x, y - size / 2),
        (x - size / 2, y), (x + size / 2, y)⟩ ∧
    draw_parallelogram x y w h skew =
      ⟨(x, y), (x, y + h / 2), (x, y - h / 2), (x - w / 2, y), (x + w / 2, y)⟩ ∧
    anchorMidpoints (draw_oval x y w h) ∧
    anchorMidpoints (draw_rect x y w h) ∧
    anchorMidpoints (draw_diamond x y size) ∧
    anchorMidpoints (draw_parallelogram x y w h skew) := by
  refine ⟨rfl, rfl, rfl, rfl, ?_, ?_, ?_, ?_⟩ <;>
    · constructor <;>
      · simp only [anchorMidpoints, draw_oval, draw_rect, draw_diamond,
          draw_parallelogram, Prod.ext_iff]
        constructor <;> ring

/-- C8: for a MindMapSpec with `N` branches whose maximum child count is
`M`, the canvas width is at least `max(16, 3N)` and the height at least
`max(12, 4 + 1.5M)`; the per-branch form of the height bound states it
for every branch's child count. -/
theorem C8_canvas_bounds (data : MindMapSpec) :
    16 ≤ mindmap_width data ∧
    3 * (data.branches.length : ℝ) ≤ mindmap_width data ∧
    12 ≤ mindmap_height data ∧
    4 + 1.5 * (mindmap_max_children data : ℝ) ≤ mindmap_height data ∧
    ∀ b ∈ data.branches,
      4 + 1.5 * (b.children.length : ℝ) ≤ mindmap_height data := by
  refine ⟨le_max_left _ _, ?_, le_max_left _ _, ?_, ?_⟩
  · calc (3 : ℝ) * data.branches.length = data.branches.length * 3 := by ring
    _ ≤ mindmap_width data := le_max_right _ _
  · calc (4 : ℝ) + 1.5 * mindmap_max_children data
        = 4 + (mindmap_max_children data : ℝ) * 1.5 := by ring
    _ ≤ mindmap_height data := le_max_right _ _
  · intro b hb
    have hne : data.branches ≠ [] := List.ne_nil_of_mem hb
    have hmem : b.children.length ∈ data.branches.map (fun c => c.children.length) :=
      List.mem_map_of_mem _ hb
    have hb_le : b.children.length ≤ mindmap_max_children data := by
      unfold mindmap_max_children
      rw [if_neg hne]
      cases hmax : (data.branches.map (fun c => c.children.length)).maximum with
      | bot =>
          exact absurd (by simpa using List.maximum_eq_bot.mp hmax) hne
      | coe m =>
          have hle : b.children.length ≤ m := List.le_maximum_of_mem hmem hmax
          simpa using hle
    have hcast : (b.children.length : ℝ) ≤ (mindmap_max_children data : ℝ) := by
      exact_mod_cast hb_le
    calc (4 : ℝ) + 1.5 * b.children.length
        ≤ 4 + 1.5 * mindmap_max_children data := by nlinarith
    _ = 4 + (mindmap_max_children data : ℝ) * 1.5 := by ring
    _ ≤ mindmap_height data := le_max_right _ _

/-- C8 witness: the bounds at a concrete two-branch spec. -/
theorem C8_canvas_bounds_witness :
    4 + 1.5 * ((Branch.mk "a" none ["x", "y"]).children.length : ℝ) ≤
      mindmap_height ⟨"t", "h", [⟨"a", none, ["x", "y"]⟩, ⟨"b", none, []⟩]⟩ :=
  (C8_canvas_bounds ⟨"t", "h", [⟨"a", none, ["x", "y"]⟩, ⟨"b", none, []⟩]⟩).2.2.2.2
    ⟨"a", none, ["x", "y"]⟩ (by simp)

/-- C5: for `N ≥ 1` steps, `create_flowchart` produces exactly `N`
anchors; the vertical center of step `i` is
`max(14, 2.5N) - 1 - (i+1) * ((max(14, 2.5N) - 2) / (N+1))`, and the
vertical positions are strictly decreasing in the step index. -/
theorem C5_vertical_layout (steps : List FlowStep) (hn : 1 ≤ steps.length) :
    (flow_nodes steps).length = steps.length ∧
    (∀ (i : ℕ) (s : FlowStep), steps[i]? = some s →
      ∃ nd, (flow_nodes steps)[i]? = some nd ∧
        nd.center.2 = max 14 ((steps.length : ℚ) * 2.5) - 1 -
          ((i : ℚ) + 1) *
            ((max 14 ((steps.length : ℚ) * 2.5) - 2) / ((steps.length : ℚ) + 1))) ∧
    (∀ i j : ℕ, i < j → j < steps.length →
      flow_y steps.length j < flow_y steps.length i) := by
  refine ⟨flow_nodes_length steps, ?_, ?_⟩
  · intro i s hs
    refine ⟨draw_step s (flow_x s) (flow_y steps.length i), ?_, ?_⟩
    · rw [flow_nodes_getElem, hs]
      rfl
    · rw [draw_step_center]
      simp only [flow_y, flow_height, flow_y_spacing]
  · intro i j hij hj
    unfold flow_y
    have hspace : 0 < flow_y_spacing steps.length := by
      unfold flow_y_spacing flow_height
      apply div_pos
      · have h14 : (14 : ℚ) ≤ max 14 ((steps.length : ℚ) * 2.5) := le_max_left _ _
        linarith
      · positivity
    have hmul : ((i : ℚ) + 1) * flow_y_spacing steps.length <
        ((j : ℚ) + 1) * flow_y_spacing steps.length := by
      apply mul_lt_mul_of_pos_right _ hspace
      have hcast : (i : ℚ) < j := by exact_mod_cast hij
      linarith
    linarith

/-- C5 witness: the layout facts at a concrete two-step list. -/
theorem C5_vertical_layout_witness :
    (flow_nodes [⟨"start", "a", none, none, none, none⟩,
                 ⟨"end", "b", none, none, none, none⟩]).length = 2 ∧
    flow_y 2 1 < flow_y 2 0 := by
  have h := C5_vertical_layout
    [⟨"start", "a", none, none, none, none⟩, ⟨"end", "b", none, none, none, none⟩]
    (by decide)
  exact ⟨h.1, h.2.2 0 1 (by decide) (by decide)⟩

/-- C10: a step whose type is none of start, end, process, decision, io
is rendered by both `create_flowchart` and `create_linear_flowchart` as
the rounded rectangle (process shape), with rectangle anchors, and no
error is raised (both node builders are total). -/
theorem C10_unknown_type_fallback :
    (∀ (steps : List FlowStep) (i : ℕ) (s : FlowStep), steps[i]? = some s →
      s.type ∉ (["start", "end", "process", "decision", "io"] : List String) →
      (flow_nodes steps)[i]? =
        some (draw_rect (flow_x s) (flow_y steps.length i) 3.0 1.2)) ∧
    (∀ (items : List (String × String)) (i : ℕ) (it : String × String),
      items[i]? = some it →
      it.1 ∉ (["start", "end", "process", "decision", "io"] : List String) →
      (linear_nodes items)[i]? =
        some (draw_rect 4 (linear_height items.length - 2 - i * 2) 3.0 1.2)) := by
  constructor
  · intro steps i s hs hty
    simp only [List.mem_cons, List.not_mem_nil, or_false, not_or] at hty
    obtain ⟨h1, h2, h3, h4, h5⟩ := hty
    rw [flow_nodes_getElem, hs]
    simp only [Option.map_some']
    unfold draw_step
    rw [if_neg (by tauto), if_neg h3, if_neg h4, if_neg h5]
  · intro items i it hit hty
    simp only [List.mem_cons, List.not_mem_nil, or_false, not_or] at hty
    obtain ⟨h1, h2, h3, h4, h5⟩ := hty
    rw [linear_nodes_getElem, hit]
    simp only [Option.map_some']
    unfold linear_node
    rw [if_neg (by tauto), if_neg h4, if_neg h5]

/-- C10 witness: the fallback at a concrete unknown step type. -/
theorem C10_unknown_type_fallback_witness :
    (flow_nodes [⟨"mystery", "t", none, none, none, none⟩])[0]? =
      some (draw_rect (flow_x ⟨"mystery", "t", none, none, none, none⟩)
        (flow_y 1 0) 3.0 1.2) ∧
    (linear_nodes [("mystery", "t")])[0]? =
      some (draw_rect 4 (linear_height 1 - 2 - 0 * 2) 3.0 1.2) :=
  ⟨C10_unknown_type_fallback.1 [⟨"mystery", "t", none, none, none, none⟩] 0
      ⟨"mystery", "t", none, none, none, none⟩ rfl (by decide),
   C10_unknown_type_fallback.2 [("mystery", "t")] 0 ("mystery", "t") rfl (by decide)⟩

theorem ok_bind {ε α β : Type} (a : α) (f : α → Except ε β) :
    (Except.ok a >>= f : Except ε β) = f a := rfl

theorem pure_ok {ε α : Type} (a : α) : (pure a : Except ε α) = Except.ok a := rfl

theorem error_bind {ε α β : Type} (e : ε) (f : α → Except ε β) :
    (Except.error e >>= f : Except ε β) = Except.error e := rfl

/-- C1: a decision step with in-range `yes_to` and `no_to` contributes
exactly two curved edges, from its left anchor to the `yes_to` node's
top anchor labeled "Yes" and from its right anchor to the `no_to`
node's top anchor labeled "No"; a step of any other type with an
in-range `next` contributes exactly one straight unlabeled edge from
its bottom anchor to the `next` node's top anchor. -/
theorem C1_edge_rule (steps : List FlowStep) (i : ℕ) (s : FlowStep)
    (hs : steps[i]? = some s) :
    (∀ (y z : ℕ) (me ty tz : NodeAnchor), s.type = "decision" →
      s.yes_to = some (y : Int) → s.no_to = some (z : Int) →
      (flow_nodes steps)[i]? = some me →
      (flow_nodes steps)[y]? = some ty →
      (flow_nodes steps)[z]? = some tz →
      edgesForStep (flow_nodes steps) i s =
        Except.ok [Edge.mk me.left ty.top "Yes" true,
                   Edge.mk me.right tz.top "No" true]) ∧
    (∀ (nx : ℕ) (me t : NodeAnchor), s.type ≠ "decision" →
      s.next = some (nx : Int) →
      (flow_nodes steps)[i]? = some me →
      (flow_nodes steps)[nx]? = some t →
      edgesForStep (flow_nodes steps) i s =
        Except.ok [Edge.mk me.bottom t.top "" false]) := by
  constructor
  · intro y z me ty tz hdec hy hz hme hty htz
    have hycond : ((y : ℕ) : Int) < ((flow_nodes steps).length : Int) := by
      have h1 := (List.getElem?_eq_some.mp hty).1
      exact_mod_cast h1
    have hzcond : ((z : ℕ) : Int) < ((flow_nodes steps).length : Int) := by
      have h1 := (List.getElem?_eq_some.mp htz).1
      exact_mod_cast h1
    simp only [edgesForStep, if_pos hdec, hy, hz, if_pos hycond, if_pos hzcond,
      pyGet_coe _ _ _ hme, pyGet_coe _ _ _ hty, pyGet_coe _ _ _ htz,
      ok_bind, pure_ok, List.singleton_append]
  · intro nx me t hdec hnx hme ht
    have hcond : ((nx : ℕ) : Int) < ((flow_nodes steps).length : Int) := by
      have h1 := (List.getElem?_eq_some.mp ht).1
      exact_mod_cast h1
    simp only [edgesForStep, if_neg hdec, hnx, if_pos hcond,
      pyGet_coe _ _ _ hme, pyGet_coe _ _ _ ht, ok_bind, pure_ok]

/-- Concrete steps used to witness C1: a decision branching to a
process node and an end node. -/
def c1s0 : FlowStep := ⟨"decision", "d", none, some 1, some 2, none⟩

def c1s1 : FlowStep := ⟨"process", "p", some 2, none, none, none⟩

def c1s2 : FlowStep := ⟨"end", "e", none, none, none, none⟩

def c1steps : List FlowStep := [c1s0, c1s1, c1s2]

/-- C1 witness: the two decision edges and the single process edge at a
concrete three-step flowchart. -/
theorem C1_edge_rule_witness :
    edgesForStep (flow_nodes c1steps) 0 c1s0 =
      Except.ok [Edge.mk (draw_step c1s0 (flow_x c1s0) (flow_y 3 0)).left
                   (draw_step c1s1 (flow_x c1s1) (flow_y 3 1)).top "Yes" true,
                 Edge.mk (draw_step c1s0 (flow_x c1s0) (flow_y 3 0)).right
                   (draw_step c1s2 (flow_x c1s2) (flow_y 3 2)).top "No" true] ∧
    edgesForStep (flow_nodes c1steps) 1 c1s1 =
      Except.ok [Edge.mk (draw_step c1s1 (flow_x c1s1) (flow_y 3 1)).bottom
                   (draw_step c1s2 (flow_x c1s2) (flow_y 3 2)).top "" false] :=
  ⟨(C1_edge_rule c1steps 0 c1s0 rfl).1 1 2
      (draw_step c1s0 (flow_x c1s0) (flow_y c1steps.length 0))
      (draw_step c1s1 (flow_x c1s1) (flow_y c1steps.length 1))
      (draw_step c1s2 (flow_x c1s2) (flow_y c1steps.length 2))
      rfl rfl rfl rfl rfl rfl,
   (C1_edge_rule c1steps 1 c1s1 rfl).2 2
      (draw_step c1s1 (flow_x c1s1) (flow_y c1steps.length 1))
      (draw_step c1s2 (flow_x c1s2) (flow_y c1steps.length 2))
      (by decide) rfl rfl rfl⟩

/-- C2 (amended): per connection (`next` for non-decision steps,
`yes_to` and `no_to` for decision steps), a successor that is `None` or
a non-negative index at or past the end of the sequence contributes no
edge and raises no error, even when the step's other connection is
valid.  Negative successor indices are not guarded (the only check is
`idx < len(nodes)`): an index `k` with `-N ≤ k < 0` produces an edge to
the node at Python position `N + k`, and an index below `-N` raises
`IndexError`. -/
theorem C2_connection_rule (steps : List FlowStep) (i : ℕ) (s : FlowStep)
    (hi : i < steps.length) (hs : steps[i]? = some s) :
    (s.type = "decision" →
      (s.yes_to = none ∨
        ∃ y : Int, s.yes_to = some y ∧ (steps.length : Int) ≤ y) →
      (s.no_to = none ∨
        ∃ z : Int, s.no_to = some z ∧ (steps.length : Int) ≤ z) →
      edgesForStep (flow_nodes steps) i s = Except.ok []) ∧
    (s.type = "decision" →
      (s.yes_to = none ∨
        ∃ y : Int, s.yes_to = some y ∧ (steps.length : Int) ≤ y) →
      ∀ (z : ℕ) (me tz : NodeAnchor), s.no_to = some (z : Int) →
      z < steps.length →
      (flow_nodes steps)[i]? = some me → (flow_nodes steps)[z]? = some tz →
      edgesForStep (flow_nodes steps) i s =
        Except.ok [Edge.mk me.right tz.top "No" true]) ∧
    (s.type = "decision" →
      ∀ (y : ℕ) (me ty : NodeAnchor), s.yes_to = some (y : Int) →
      y < steps.length →
      (s.no_to = none ∨
        ∃ z : Int, s.no_to = some z ∧ (steps.length : Int) ≤ z) →
      (flow_nodes steps)[i]? = some me → (flow_nodes steps)[y]? = some ty →
      edgesForStep (flow_nodes steps) i s =
        Except.ok [Edge.mk me.left ty.top "Yes" true]) ∧
    (s.type ≠ "decision" →
      (s.next = none ∨
        ∃ w : Int, s.next = some w ∧ (steps.length : Int) ≤ w) →
      edgesForStep (flow_nodes steps) i s = Except.ok []) ∧
    (s.type = "decision" →
      ∀ (y : Int) (me ty : NodeAnchor), s.yes_to = some y → y < 0 →
      0 ≤ y + (steps.length : Int) →
      (s.no_to = none ∨
        ∃ z : Int, s.no_to = some z ∧ (steps.length : Int) ≤ z) →
      (flow_nodes steps)[i]? = some me →
      (flow_nodes steps)[(y + (steps.length : Int)).toNat]? = some ty →
      edgesForStep (flow_nodes steps) i s =
        Except.ok [Edge.mk me.left ty.top "Yes" true]) ∧
    (s.type = "decision" →
      ∀ y : Int, s.yes_to = some y → y + (steps.length : Int) < 0 →
      edgesForStep (flow_nodes steps) i s = Except.error "IndexError") ∧
    (s.type = "decision" →
      (s.yes_to = none ∨
        ∃ y : Int, s.yes_to = some y ∧ (steps.length : Int) ≤ y) →
      ∀ (z : Int) (me tz : NodeAnchor), s.no_to = some z → z < 0 →
      0 ≤ z + (steps.length : Int) →
      (flow_nodes steps)[i]? = some me →
      (flow_nodes steps)[(z + (steps.length : Int)).toNat]? = some tz →
      edgesForStep (flow_nodes steps) i s =
        Except.ok [Edge.mk me.right tz.top "No" true]) ∧
    (s.type = "decision" →
      (s.yes_to = none ∨
        ∃ y : Int, s.yes_to = some y ∧ (steps.length : Int) ≤ y) →
      ∀ z : Int, s.no_to = some z → z + (steps.length : Int) < 0 →
      edgesForStep (flow_nodes steps) i s = Except.error "IndexError") ∧
    (s.type ≠ "decision" →
      ∀ (w : Int) (me t : NodeAnchor), s.next = some w → w < 0 →
      0 ≤ w + (steps.length : Int) →
      (flow_nodes steps)[i]? = some me →
      (flow_nodes steps)[(w + (steps.length : Int)).toNat]? = some t →
      edgesForStep (flow_nodes steps) i s =
        Except.ok [Edge.mk me.bottom t.top "" false]) ∧
    (s.type ≠ "decision" →
      ∀ w : Int, s.next = some w → w + (steps.length : Int) < 0 →
      edgesForStep (flow_nodes steps) i s = Except.error "IndexError") := by
  have hlen : (flow_nodes steps).length = steps.length := flow_nodes_length steps
  have hmei : ∃ me, (flow_nodes steps)[i]? = some me :=
    ⟨_, List.getElem?_eq_getElem (show i < (flow_nodes steps).length by
      rw [hlen]; exact hi)⟩
  refine ⟨?_, ?_, ?_, ?_, ?_, ?_, ?_, ?_, ?_, ?_⟩
  · intro hdec hyes hno
    rcases hyes with hy | ⟨y, hy, hgey⟩ <;> rcases hno with hz | ⟨z, hz, hgez⟩
    · simp only [edgesForStep, if_pos hdec, hy, hz, pure_ok, ok_bind,
        List.nil_append]
    · have hnz : ¬ ((z : Int) < ((flow_nodes steps).length : Int)) := by
        rw [hlen]; omega
      simp only [edgesForStep, if_pos hdec, hy, hz, if_neg hnz, pure_ok,
        ok_bind, List.nil_append]
    · have hny : ¬ ((y : Int) < ((flow_nodes steps).length : Int)) := by
        rw [hlen]; omega
      simp only [edgesForStep, if_pos hdec, hy, hz, if_neg hny, pure_ok,
        ok_bind, List.nil_append]
    · have hny : ¬ ((y : Int) < ((flow_nodes steps).length : Int)) := by
        rw [hlen]; omega
      have hnz : ¬ ((z : Int) < ((flow_nodes steps).length : Int)) := by
        rw [hlen]; omega
      simp only [edgesForStep, if_pos hdec, hy, hz, if_neg hny, if_neg hnz,
        pure_ok, ok_bind, List.nil_append]
  · intro hdec hyes z me tz hz hzlt hme htz
    have hzc : ((z : ℕ) : Int) < ((flow_nodes steps).length : Int) := by
      rw [hlen]; exact_mod_cast hzlt
    rcases hyes with hy | ⟨y, hy, hgey⟩
    · simp only [edgesForStep, if_pos hdec, hy, hz, if_pos hzc,
        pyGet_coe _ _ _ hme, pyGet_coe _ _ _ htz, pure_ok, ok_bind,
        List.nil_append]
    · have hny : ¬ ((y : Int) < ((flow_nodes steps).length : Int)) := by
        rw [hlen]; omega
      simp only [edgesForStep, if_pos hdec, hy, hz, if_neg hny, if_pos hzc,
        pyGet_coe _ _ _ hme, pyGet_coe _ _ _ htz, pure_ok, ok_bind,
        List.nil_append]
  · intro hdec y me ty hy hylt hno hme hty
    have hyc : ((y : ℕ) : Int) < ((flow_nodes steps).length : Int) := by
      rw [hlen]; exact_mod_cast hylt
    rcases hno with hz | ⟨z, hz, hgez⟩
    · simp only [edgesForStep, if_pos hdec, hy, hz, if_pos hyc,
        pyGet_coe _ _ _ hme, pyGet_coe _ _ _ hty, pure_ok, ok_bind,
        List.append_nil]
    · have hnz : ¬ ((z : Int) < ((flow_nodes steps).length : Int)) := by
        rw [hlen]; omega
      simp only [edgesForStep, if_pos hdec, hy, hz, if_neg hnz, if_pos hyc,
        pyGet_coe _ _ _ hme, pyGet_coe _ _ _ hty, pure_ok, ok_bind,
        List.append_nil]
  · intro hdec hnext
    rcases hnext with hw | ⟨w, hw, hgew⟩
    · simp only [edgesForStep, if_neg hdec, hw, pure_ok]
    · have hnw : ¬ ((w : Int) < ((flow_nodes steps).length : Int)) := by
        rw [hlen]; omega
      simp only [edgesForStep, if_neg hdec, hw, if_neg hnw, pure_ok]
  · intro hdec y me ty hy hyneg hyge hno hme hty
    have hyc : (y : Int) < ((flow_nodes steps).length : Int) := by
      rw [hlen]; omega
    rw [← hlen] at hyge hty
    have hpy : pyGet (flow_nodes steps) y = Except.ok ty :=
      pyGet_neg _ _ _ hyneg hyge hty
    rcases hno with hz | ⟨z, hz, hgez⟩
    · simp only [edgesForStep, if_pos hdec, hy, hz, if_pos hyc,
        pyGet_coe _ _ _ hme, hpy, pure_ok, ok_bind, List.append_nil]
    · have hnz : ¬ ((z : Int) < ((flow_nodes steps).length : Int)) := by
        rw [hlen]; omega
      simp only [edgesForStep, if_pos hdec, hy, hz, if_neg hnz, if_pos hyc,
        pyGet_coe _ _ _ hme, hpy, pure_ok, ok_bind, List.append_nil]
  · intro hdec y hy hylow
    obtain ⟨me, hme⟩ := hmei
    have hyc : (y : Int) < ((flow_nodes steps).length : Int) := by
      rw [hlen]; omega
    have hpy : pyGet (flow_nodes steps) y = Except.error "IndexError" := by
      apply pyGet_neg_oob
      rw [hlen]; omega
    simp only [edgesForStep, if_pos hdec, hy, if_pos hyc,
      pyGet_coe _ _ _ hme, hpy, ok_bind, error_bind]
  · intro hdec hyes z me tz hz hzneg hzge hme htz
    have hzc : (z : Int) < ((flow_nodes steps).length : Int) := by
      rw [hlen]; omega
    rw [← hlen] at hzge htz
    have hpz : pyGet (flow_nodes steps) z = Except.ok tz :=
      pyGet_neg _ _ _ hzneg hzge htz
    rcases hyes with hy | ⟨y, hy, hgey⟩
    · simp only [edgesForStep, if_pos hdec, hy, hz, if_pos hzc,
        pyGet_coe _ _ _ hme, hpz, pure_ok, ok_bind, List.nil_append]
    · have hny : ¬ ((y : Int) < ((flow_nodes steps).length : Int)) := by
        rw [hlen]; omega
      simp only [edgesForStep, if_pos hdec, hy, hz, if_neg hny, if_pos hzc,
        pyGet_coe _ _ _ hme, hpz, pure_ok, ok_bind, List.nil_append]
  · intro hdec hyes z hz hzlow
    obtain ⟨me, hme⟩ := hmei
    have hzc : (z : Int) < ((flow_nodes steps).length : Int) := by
      rw [hlen]; omega
    have hpz : pyGet (flow_nodes steps) z = Except.error "IndexError" := by
      apply pyGet_neg_oob
      rw [hlen]; omega
    rcases hyes with hy | ⟨y, hy, hgey⟩
    · simp only [edgesForStep, if_pos hdec, hy, hz, if_pos hzc,
        pyGet_coe _ _ _ hme, hpz, pure_ok, ok_bind, error_bind]
    · have hny : ¬ ((y : Int) < ((flow_nodes steps).length : Int)) := by
        rw [hlen]; omega
      simp only [edgesForStep, if_pos hdec, hy, hz, if_neg hny, if_pos hzc,
        pyGet_coe _ _ _ hme, hpz, pure_ok, ok_bind, error_bind]
  · intro hdec w me t hw hwneg hwge hme ht
    have hwc : (w : Int) < ((flow_nodes steps).length : Int) := by
      rw [hlen]; omega
    rw [← hlen] at hwge ht
    have hpw : pyGet (flow_nodes steps) w = Except.ok t :=
      pyGet_neg _ _ _ hwneg hwge ht
    simp only [edgesForStep, if_neg hdec, hw, if_pos hwc,
      pyGet_coe _ _ _ hme, hpw, pure_ok, ok_bind]
  · intro hdec w hw hwlow
    obtain ⟨me, hme⟩ := hmei
    have hwc : (w : Int) < ((flow_nodes steps).length : Int) := by
      rw [hlen]; omega
    have hpw : pyGet (flow_nodes steps) w = Except.error "IndexError" := by
      apply pyGet_neg_oob
      rw [hlen]; omega
    simp only [edgesForStep, if_neg hdec, hw, if_pos hwc,
      pyGet_coe _ _ _ hme, hpw, ok_bind, error_bind]

/-- Concrete steps used to witness C2: a decision whose `yes_to` points
past the end while its `no_to` is valid, followed by a start step with
no successor. -/
def c2w0 : FlowStep := ⟨"decision", "d", none, some 7, some 1, none⟩

def c2w1 : FlowStep := ⟨"start", "s", none, none, none, none⟩

def c2wsteps : List FlowStep := [c2w0, c2w1]

/-- C2 witness: the past-the-end `yes_to` contributes nothing while the
valid `no_to` still draws its "No" edge, and the start step with no
successor contributes nothing — all without error. -/
theorem C2_connection_rule_witness :
    edgesForStep (flow_nodes c2wsteps) 0 c2w0 =
      Except.ok [Edge.mk (draw_step c2w0 (flow_x c2w0) (flow_y 2 0)).right
                   (draw_step c2w1 (flow_x c2w1) (flow_y 2 1)).top "No" true] ∧
    edgesForStep (flow_nodes c2wsteps) 1 c2w1 = Except.ok [] :=
  ⟨(C2_connection_rule c2wsteps 0 c2w0 (by decide) rfl).2.1 rfl
      (Or.inr ⟨7, rfl, by decide⟩) 1
      (draw_step c2w0 (flow_x c2w0) (flow_y c2wsteps.length 0))
      (draw_step c2w1 (flow_x c2w1) (flow_y c2wsteps.length 1))
      rfl (by decide) rfl rfl,
   (C2_connection_rule c2wsteps 1 c2w1 (by decide) rfl).2.2.2.1 (by decide)
      (Or.inl rfl)⟩

/-- Concrete steps used to refute C2: a decision whose `yes_to` is the
negative index `-1`, followed by a start node. -/
def c2s0 : FlowStep := ⟨"decision", "d", none, some (-1), none, none⟩

def c2s1 : FlowStep := ⟨"start", "s", none, none, none, none⟩

def c2steps : List FlowStep := [c2s0, c2s1]

/-- C2 counterexample: the claim says a negative successor index yields
no edge, but `yes_to = -1` passes the `idx < len(nodes)` guard and
Python negative indexing draws a "Yes" edge to the last node. -/
theorem C2_counterexample :
    flow_edges c2steps =
      Except.ok [Edge.mk (draw_step c2s0 (flow_x c2s0) (flow_y 2 0)).left
                   (draw_step c2s1 (flow_x c2s1) (flow_y 2 1)).top "Yes" true] ∧
    [Edge.mk (draw_step c2s0 (flow_x c2s0) (flow_y 2 0)).left
       (draw_step c2s1 (flow_x c2s1) (flow_y 2 1)).top "Yes" true] ≠
      ([] : List Edge) := by
  exact ⟨rfl, by simp⟩

/-- C4 (amended): every step is placed at the canvas horizontal center,
except that a step declaring `branch == 'yes'` is offset left of center
by 2 and one declaring `branch == 'no'` is offset right by 2; the
values 'left' and 'right' are not recognized and leave the step at the
center. -/
theorem C4_branch_offsets (steps : List FlowStep) (i : ℕ) (s : FlowStep)
    (nd : NodeAnchor) (hs : steps[i]? = some s)
    (hnd : (flow_nodes steps)[i]? = some nd) :
    nd.center.1 = (if s.branch = some "yes" then x_center - 2
      else if s.branch = some "no" then x_center + 2 else x_center) := by
  rw [flow_nodes_getElem, hs, Option.map_some', Option.some.injEq] at hnd
  rw [← hnd, draw_step_center]
  rfl

/-- C4 witness: the left offset at a concrete `branch == 'yes'` step. -/
theorem C4_branch_offsets_witness :
    (draw_step ⟨"process", "t", none, none, none, some "yes"⟩
        (flow_x ⟨"process", "t", none, none, none, some "yes"⟩)
        (flow_y 1 0)).center.1 =
      (if (some "yes" : Option String) = some "yes" then x_center - 2
        else if (some "yes" : Option String) = some "no" then x_center + 2
        else x_center) :=
  C4_branch_offsets [⟨"process", "t", none, none, none, some "yes"⟩] 0
    ⟨"process", "t", none, none, none, some "yes"⟩
    (draw_step ⟨"process", "t", none, none, none, some "yes"⟩
      (flow_x ⟨"process", "t", none, none, none, some "yes"⟩) (flow_y 1 0))
    rfl rfl

/-- C4 counterexample: a step declaring `branch == 'left'` is placed at
the canvas horizontal center, not offset left of it by the fixed
lateral distance 2. -/
theorem C4_counterexample :
    ((flow_nodes [⟨"process", "t", none, none, none, some "left"⟩]).map
        (fun nd => nd.center.1) = [x_center]) ∧
    x_center ≠ x_center - 2 := by
  constructor
  · rfl
  · norm_num [x_center, flow_width]

/-- With a nonzero count, `radial_layout` succeeds and position `i` is
at angle `radians(start_angle + i * (360 / count))` on the circle. -/
theorem radial_layout_ok (center : ℝ × ℝ) (radius : ℝ) (count : ℕ)
    (start_angle : ℝ) (h : count ≠ 0) :
    radial_layout center radius count start_angle =
      Except.ok ((List.range count).map (fun i : ℕ =>
        (center.1 + radius *
           Real.cos ((start_angle + i * (360 / (count : ℝ))) * Real.pi / 180),
         center.2 + radius *
           Real.sin ((start_angle + i * (360 / (count : ℝ))) * Real.pi / 180)))) := by
  unfold radial_layout
  rw [if_neg h]

/-- C7 (amended): `create_mindmap` applied to a spec with zero branches
does not complete: `radial_layout` evaluates `360 / count` with
`count == 0` and raises `ZeroDivisionError`.  An empty step sequence in
the flow layout still degrades silently, yielding no nodes, no edges
and no error. -/
theorem C7_zero_branches (data : MindMapSpec) (hd : data.branches = []) :
    create_mindmap data = Except.error "ZeroDivisionError" ∧
    create_flowchart [] = Except.ok ([], []) := by
  constructor
  · simp [create_mindmap, radial_layout, hd, error_bind]
  · rfl

/-- C7 witness: the zero-branch error and the empty-flow success at
concrete inputs. -/
theorem C7_zero_branches_witness :
    create_mindmap ⟨"a", "b", []⟩ = Except.error "ZeroDivisionError" ∧
    create_flowchart [] = Except.ok ([], []) :=
  C7_zero_branches ⟨"a", "b", []⟩ rfl

/-- C7 counterexample: the claim says `create_mindmap` with zero
branches completes without error, but it fails with
`ZeroDivisionError`. -/
theorem C7_counterexample :
    create_mindmap ⟨"t", "h", []⟩ = Except.error "ZeroDivisionError" := by
  simp [create_mindmap, radial_layout, error_bind]

/-- With at least one branch, `create_mindmap` succeeds and its branch
position list is the radial layout on the circle of radius
`min(width, height) / 3` around the canvas center, branch `i` at angle
`radians(90 + i * (360 / N))`. -/
theorem create_mindmap_branch_positions (data : MindMapSpec)
    (h : data.branches.length ≠ 0) :
    (create_mindmap data).map (fun L => L.branch_positions) =
      Except.ok ((List.range data.branches.length).map (fun i : ℕ =>
        (mindmap_width data / 2 +
           min (mindmap_width data) (mindmap_height data) / 3 *
             Real.cos ((90 + i * (360 / (data.branches.length : ℝ))) * Real.pi / 180),
         mindmap_height data / 2 +
           min (mindmap_width data) (mindmap_height data) / 3 *
             Real.sin ((90 + i * (360 / (data.branches.length : ℝ))) *
               Real.pi / 180)))) := by
  simp only [create_mindmap]
  rw [radial_layout_ok _ _ _ _ h, ok_bind]
  rfl

/-- C3 (amended): for `N ≥ 1` branches, the branch nodes are placed at
evenly spaced points on the circle of radius `min(width, height) / 3`
centered on the canvas center, each at exact distance radius from the
center, with branch 0 at 90° (top) and branch `i` at
`90° + i * (360/N)°` — i.e. proceeding counterclockwise, not
clockwise. -/
theorem C3_radial_branches (data : MindMapSpec)
    (hn : 1 ≤ data.branches.length) :
    ∃ ps : List (ℝ × ℝ),
      (create_mindmap data).map (fun L => L.branch_positions) = Except.ok ps ∧
      ps.length = data.branches.length ∧
      ∀ i : ℕ, i < data.branches.length →
        ps[i]? = some
          (mindmap_width data / 2 +
             min (mindmap_width data) (mindmap_height data) / 3 *
               Real.cos ((90 + i * (360 / (data.branches.length : ℝ))) *
                 Real.pi / 180),
           mindmap_height data / 2 +
             min (mindmap_width data) (mindmap_height data) / 3 *
               Real.sin ((90 + i * (360 / (data.branches.length : ℝ))) *
                 Real.pi / 180)) ∧
        ∀ p : ℝ × ℝ, ps[i]? = some p →
          Real.sqrt ((p.1 - mindmap_width data / 2) ^ 2 +
              (p.2 - mindmap_height data / 2) ^ 2) =
            min (mindmap_width data) (mindmap_height data) / 3 := by
  have h0 : data.branches.length ≠ 0 := by omega
  refine ⟨_, create_mindmap_branch_positions data h0,
    by rw [List.length_map, List.length_range], ?_⟩
  intro i hi
  constructor
  · rw [List.getElem?_map, List.getElem?_range hi, Option.map_some']
  · intro p hp
    rw [List.getElem?_map, List.getElem?_range hi, Option.map_some'] at hp
    injection hp with hp
    have hw : (16 : ℝ) ≤ mindmap_width data := by
      unfold mindmap_width; exact le_max_left _ _
    have hh : (12 : ℝ) ≤ mindmap_height data := by
      unfold mindmap_height; exact le_max_left _ _
    have hr : 0 ≤ min (mindmap_width data) (mindmap_height data) / 3 := by
      have := le_min (by linarith : (0 : ℝ) ≤ mindmap_width data)
        (by linarith : (0 : ℝ) ≤ mindmap_height data)
      linarith
    subst hp
    dsimp only
    have e1 : mindmap_width data / 2 +
        min (mindmap_width data) (mindmap_height data) / 3 *
          Real.cos ((90 + i * (360 / (data.branches.length : ℝ))) * Real.pi / 180) -
        mindmap_width data / 2 =
        min (mindmap_width data) (mindmap_height data) / 3 *
          Real.cos ((90 + i * (360 / (data.branches.length : ℝ))) * Real.pi / 180) := by
      ring
    have e2 : mindmap_height data / 2 +
        min (mindmap_width data) (mindmap_height data) / 3 *
          Real.sin ((90 + i * (360 / (data.branches.length : ℝ))) * Real.pi / 180) -
        mindmap_height data / 2 =
        min (mindmap_width data) (mindmap_height data) / 3 *
          Real.sin ((90 + i * (360 / (data.branches.length : ℝ))) * Real.pi / 180) := by
      ring
    rw [e1, e2, mul_pow, mul_pow, ← mul_add, Real.cos_sq_add_sin_sq, mul_one,
      Real.sqrt_sq hr]

/-- Concrete one-branch spec used to witness C3. -/
def c3one : MindMapSpec := ⟨"w", "x", [⟨"b", none, []⟩]⟩

/-- C3 witness: at a concrete one-branch spec, `create_mindmap`
succeeds with exactly one branch position, at distance radius from the
center. -/
theorem C3_radial_branches_witness :
    ((create_mindmap c3one).map (fun L => L.branch_positions)).map
        List.length = Except.ok c3one.branches.length := by
  obtain ⟨ps, h1, h2, h3⟩ := C3_radial_branches c3one (by decide)
  rw [h1]
  rw [show (Except.ok ps : Except String (List (ℝ × ℝ))).map List.length =
    Except.ok ps.length from rfl, h2]

/-- Concrete four-branch spec used to refute C3's clockwise rule. -/
def c3four : MindMapSpec :=
  ⟨"c", "h", [⟨"a", none, []⟩, ⟨"b", none, []⟩, ⟨"d", none, []⟩, ⟨"e", none, []⟩]⟩

/-- C3 counterexample: with 4 branches (canvas 16×12, center (8, 6),
radius 4), the claim's clockwise rule puts branch 1 at angle
90° - 90° = 0°, i.e. at (12, 6); the code places it at
90° + 90° = 180°, i.e. at (4, 6). -/
theorem C3_counterexample :
    (create_mindmap c3four).map (fun L => L.branch_positions[1]?) =
      Except.ok (some ((4 : ℝ), (6 : ℝ))) ∧
    ((4 : ℝ), (6 : ℝ)) ≠
      (mindmap_width c3four / 2 +
         min (mindmap_width c3four) (mindmap_height c3four) / 3 *
           Real.cos ((90 - 1 * (360 / (c3four.branches.length : ℝ))) *
             Real.pi / 180),
       mindmap_height c3four / 2 +
         min (mindmap_width c3four) (mindmap_height c3four) / 3 *
           Real.sin ((90 - 1 * (360 / (c3four.branches.length : ℝ))) *
             Real.pi / 180)) := by
  have hlen : c3four.branches.length = 4 := by decide
  have hw : mindmap_width c3four = 16 := by
    unfold mindmap_width
    rw [hlen]
    norm_num
  have hh : mindmap_height c3four = 12 := by
    have hmc : mindmap_max_children c3four = 0 := by decide
    unfold mindmap_height
    rw [hmc]
    norm_num
  have hmin : min (mindmap_width c3four) (mindmap_height c3four) = 12 := by
    rw [hw, hh]
    exact min_eq_right (by norm_num)
  constructor
  · have hbp := create_mindmap_branch_positions c3four (by decide)
    cases hcm : create_mindmap c3four with
    | error e =>
        rw [hcm] at hbp
        exact absurd hbp (by simp [Except.map])
    | ok L =>
        rw [hcm] at hbp
        simp only [Except.map, Except.ok.injEq] at hbp
        simp only [Except.map, Except.ok.injEq]
        rw [hbp, List.getElem?_map,
          List.getElem?_range (by rw [hlen]; norm_num : 1 < c3four.branches.length),
          Option.map_some']
        refine congrArg some ?_
        dsimp only
        rw [hmin, hw, hh, hlen]
        push_cast
        rw [show ((90 : ℝ) + 1 * (360 / 4)) * Real.pi / 180 = Real.pi by ring,
          Real.cos_pi, Real.sin_pi]
        norm_num [Prod.ext_iff]
  · rw [hmin, hw, hh, hlen]
    push_cast
    rw [show ((90 : ℝ) - 1 * (360 / 4)) * Real.pi / 180 = 0 by ring,
      Real.cos_zero, Real.sin_zero]
    simp only [ne_eq, Prod.mk.injEq, not_and]
    intro h4
    norm_num at h4

/-- C6: for a branch at `pos` with unit outward direction
`D = (pos - center) / ‖pos - center‖`, the child layout of
`create_mindmap` (`child_positions`) places child `j` of `count` on the
line through `pos + 2D` along the perpendicular `(-D.y, D.x)`, at
perpendicular offset `(j - (count-1)/2) * 1.2`; with exactly one child
the child sits exactly at `pos + 2D` (zero offset, directly outward),
and with three children the middle child has offset 0 and the outer
offsets are `-1.2` and `1.2`, negatives of each other. -/
theorem C6_child_fan (center pos : ℝ × ℝ) (hne : pos ≠ center) (count : ℕ) :
    ∃ D : ℝ × ℝ,
      D = ((pos.1 - center.1) /
             Real.sqrt ((pos.1 - center.1) ^ 2 + (pos.2 - center.2) ^ 2),
           (pos.2 - center.2) /
             Real.sqrt ((pos.1 - center.1) ^ 2 + (pos.2 - center.2) ^ 2)) ∧
      D.1 ^ 2 + D.2 ^ 2 = 1 ∧
      (∀ j : ℕ, j < count →
        (child_positions center pos count)[j]? = some
          (pos.1 + D.1 * 2 + -D.2 * (((j : ℝ) - ((count : ℝ) - 1) / 2) * 1.2),
           pos.2 + D.2 * 2 + D.1 * (((j : ℝ) - ((count : ℝ) - 1) / 2) * 1.2))) ∧
      (count = 1 → child_positions center pos count =
        [(pos.1 + D.1 * 2, pos.2 + D.2 * 2)]) ∧
      (count = 3 → child_positions center pos count =
        [(pos.1 + D.1 * 2 + -D.2 * (-1.2), pos.2 + D.2 * 2 + D.1 * (-1.2)),
         (pos.1 + D.1 * 2, pos.2 + D.2 * 2),
         (pos.1 + D.1 * 2 + -D.2 * 1.2, pos.2 + D.2 * 2 + D.1 * 1.2)]) := by
  have hpos : 0 < (pos.1 - center.1) ^ 2 + (pos.2 - center.2) ^ 2 := by
    rcases eq_or_ne pos.1 center.1 with h1 | h1
    · have h2 : pos.2 - center.2 ≠ 0 := by
        intro h2
        apply hne
        have h2' : pos.2 = center.2 := by
          have := sub_eq_zero.mp h2
          linarith
        exact Prod.ext h1 h2'
      have hq : 0 < (pos.2 - center.2) ^ 2 :=
        lt_of_le_of_ne (sq_nonneg _) (Ne.symm (pow_ne_zero 2 h2))
      nlinarith [sq_nonneg (pos.1 - center.1)]
    · have h1' : pos.1 - center.1 ≠ 0 := sub_ne_zero.mpr h1
      have hq : 0 < (pos.1 - center.1) ^ 2 :=
        lt_of_le_of_ne (sq_nonneg _) (Ne.symm (pow_ne_zero 2 h1'))
      nlinarith [sq_nonneg (pos.2 - center.2)]
  refine ⟨_, rfl, ?_, ?_, ?_, ?_⟩
  · dsimp only
    rw [div_pow, div_pow, div_add_div_same, Real.sq_sqrt hpos.le]
    exact div_self (ne_of_gt hpos)
  · intro j hj
    simp only [child_positions]
    rw [List.getElem?_map, List.getElem?_range hj, Option.map_some']
  · intro h1
    subst h1
    simp only [child_positions, show List.range 1 = [0] from rfl,
      List.map_cons, List.map_nil, List.cons.injEq, and_true, Prod.mk.injEq]
    push_cast
    constructor <;> ring
  · intro h3
    subst h3
    simp only [child_positions, show List.range 3 = [0, 1, 2] from rfl,
      List.map_cons, List.map_nil, List.cons.injEq, and_true, Prod.mk.injEq]
    push_cast
    refine ⟨⟨?_, ?_⟩, ⟨?_, ?_⟩, ?_, ?_⟩ <;> ring

/-- C6 witness: a single child of a branch at (1, 0) around center
(0, 0) sits exactly at the outward extension point. -/
theorem C6_child_fan_witness :
    child_positions ((0 : ℝ), (0 : ℝ)) ((1 : ℝ), (0 : ℝ)) 1 =
      [((1 : ℝ) + ((1 : ℝ) - 0) /
          Real.sqrt (((1 : ℝ) - 0) ^ 2 + ((0 : ℝ) - 0) ^ 2) * 2,
        (0 : ℝ) + ((0 : ℝ) - 0) /
          Real.sqrt (((1 : ℝ) - 0) ^ 2 + ((0 : ℝ) - 0) ^ 2) * 2)] := by
  obtain ⟨D, hD, hunit, hall, h1, h3⟩ :=
    C6_child_fan (0, 0) (1, 0) (by norm_num [Prod.ext_iff]) 1
  rw [hD] at h1
  exact h1 rfl

end Nine1bot
